import Mathlib

/-!
Verification of the travelguide repository (src/travelbest.py), a Streamlit
app that builds a prompt from traveler preferences, sends it to a generative
model, parses the reply with `json.loads`, renders the result, and serializes
it with `json.dump(rec, tmp, indent=4)`.

The embedding models:
* JSON values (`Json`, mutually with `JArr`/`JObj`); JSON numbers are kept as
  their decimal literal representation (`JNum`), which is exact for everything
  `json.loads`/`json.dump` round-trips textually.
* the Python `json` module: a parser (`parseJson`, modelling `json.loads`) and
  a printer (`dumps`, modelling `json.dump(·, indent=4)`).  The printer models
  string escaping in the `ensure_ascii=False` style (escaping `"` and `\` and
  control characters, leaving other characters literal); CPython's default
  `ensure_ascii=True` additionally `\uXXXX`-escapes non-ASCII characters,
  which changes only which characters are escaped, not any property proved
  here.
* the app itself: `buildPrompt` / `get_perfect_destination` /
  `traveler_profile_section` / `destination_preferences_section` /
  `render_main`, translated statement by statement from src/travelbest.py.
-/

namespace TravelGuide

/-- A JSON number, kept as its decimal literal: sign, integer-part digits,
fractional digits, and optional exponent (sign, digits).  Digits are base-10
digit values. -/
structure JNum where
  neg : Bool
  ip : List Nat
  fp : List Nat
  exp : Option (Bool × List Nat)
deriving DecidableEq, Repr

mutual

inductive Json where
  | null : Json
  | bool (b : Bool) : Json
  | num (n : JNum) : Json
  | str (s : String) : Json
  | arr (xs : JArr) : Json
  | obj (fs : JObj) : Json
deriving DecidableEq, Repr

/-- A list of JSON array elements. -/
inductive JArr where
  | nil : JArr
  | cons (hd : Json) (tl : JArr) : JArr
deriving DecidableEq, Repr

/-- A list of JSON object fields (key/value pairs, in insertion order, as a
Python dict preserves). -/
inductive JObj where
  | nil : JObj
  | cons (k : String) (v : Json) (tl : JObj) : JObj
deriving DecidableEq, Repr

end

/-! ## The printer: `json.dump(rec, tmp, indent=4)` from `save_recommendation_to_file` -/

/-- The character for a decimal digit value. -/
def digitChar (d : Nat) : Char := Char.ofNat (48 + d)

/-- Lowercase hexadecimal digit character, as CPython's json emits. -/
def hexDigitChar (d : Nat) : Char :=
  if d < 10 then Char.ofNat (48 + d) else Char.ofNat (87 + d)

/-- Four hex digits, most significant first. -/
def hex4 (n : Nat) : List Char :=
  [hexDigitChar (n / 4096 % 16), hexDigitChar (n / 256 % 16),
   hexDigitChar (n / 16 % 16), hexDigitChar (n % 16)]

/-- The printed fractional part of a number literal. -/
def fracStr (fp : List Nat) : List Char :=
  if fp.isEmpty then [] else '.' :: fp.map digitChar

/-- The printed exponent part of a number literal. -/
def expStr : Option (Bool × List Nat) → List Char
  | none => []
  | some (s, ds) => 'e' :: (if s then '-' else '+') :: ds.map digitChar

/-- Print a JSON number from its decimal-literal representation. -/
def printNum (n : JNum) : List Char :=
  (if n.neg then ['-'] else []) ++ n.ip.map digitChar ++ fracStr n.fp ++ expStr n.exp

/-- JSON string escaping of one character: `"` and `\` and the short control
escapes, other control characters as `\u00XX`; all other characters literal. -/
def escapeChar (c : Char) : List Char :=
  if c = '"' then ['\\', '"']
  else if c = '\\' then ['\\', '\\']
  else if c = '\n' then ['\\', 'n']
  else if c = '\t' then ['\\', 't']
  else if c = '\r' then ['\\', 'r']
  else if c = Char.ofNat 8 then ['\\', 'b']
  else if c = Char.ofNat 12 then ['\\', 'f']
  else if c.toNat < 32 then '\\' :: 'u' :: hex4 c.toNat
  else [c]

/-- Escape every character of a string body. -/
def escapeList : List Char → List Char
  | [] => []
  | c :: cs => escapeChar c ++ escapeList cs

/-- `indent=4` whitespace for a nesting level. -/
def ind (lvl : Nat) : List Char := List.replicate (4 * lvl) ' '

mutual

/-- Serialize a JSON value the way `json.dump(·, indent=4)` lays it out:
containers put every item on its own line, indented four spaces per level,
with item separator `,` and key separator `: `; empty containers are inline. -/
def printV (lvl : Nat) : Json → List Char
  | .null => "null".data
  | .bool true => "true".data
  | .bool false => "false".data
  | .num n => printNum n
  | .str s => '"' :: (escapeList s.data ++ ['"'])
  | .arr .nil => ['[', ']']
  | .arr (.cons h t) =>
      '[' :: '\n' :: (ind (lvl + 1) ++ (printV (lvl + 1) h ++
        (printElems (lvl + 1) t ++ '\n' :: (ind lvl ++ [']']))))
  | .obj .nil => ['\x7b', '\x7d']
  | .obj (.cons k v t) =>
      '\x7b' :: '\n' :: (ind (lvl + 1) ++ ('"' :: (escapeList k.data ++
        '"' :: ':' :: ' ' :: printV (lvl + 1) v) ++
        (printFields (lvl + 1) t ++ '\n' :: (ind lvl ++ ['\x7d']))))

/-- The `, newline, indent, element` tail of a non-empty printed array. -/
def printElems (lvl : Nat) : JArr → List Char
  | .nil => []
  | .cons h t => ',' :: '\n' :: (ind lvl ++ (printV lvl h ++ printElems lvl t))

/-- The `, newline, indent, key: value` tail of a non-empty printed object. -/
def printFields (lvl : Nat) : JObj → List Char
  | .nil => []
  | .cons k v t =>
      ',' :: '\n' :: (ind lvl ++ ('"' :: (escapeList k.data ++
        '"' :: ':' :: ' ' :: printV lvl v) ++ printFields lvl t))

end

/-- The serialization `json.dump(rec, tmp, indent=4)` writes, as a string. -/
def dumps (v : Json) : String := String.mk (printV 0 v)

/-- `save_recommendation_to_file(rec)` (src/travelbest.py lines 165-168):
the content `json.dump(rec, tmp, indent=4)` writes to the temp file offered
for download. -/
def save_recommendation_to_file (rec : Json) : String := dumps rec

/-! ## The parser: `json.loads` -/

/-- JSON whitespace. -/
def isWs (c : Char) : Bool :=
  c.toNat == 32 || c.toNat == 10 || c.toNat == 9 || c.toNat == 13

/-- Decimal digit test. -/
def isDig (c : Char) : Bool := 48 ≤ c.toNat && c.toNat ≤ 57

/-- Drop leading JSON whitespace. -/
def skipWs : List Char → List Char
  | [] => []
  | c :: cs => if isWs c then skipWs cs else c :: cs

/-- Value of one hex digit character (either case). -/
def hexVal (c : Char) : Option Nat :=
  if 48 ≤ c.toNat ∧ c.toNat ≤ 57 then some (c.toNat - 48)
  else if 97 ≤ c.toNat ∧ c.toNat ≤ 102 then some (c.toNat - 87)
  else if 65 ≤ c.toNat ∧ c.toNat ≤ 70 then some (c.toNat - 55)
  else none

/-- Value of four hex digit characters, most significant first. -/
def hex4Val (a b c d : Char) : Option Nat :=
  match hexVal a, hexVal b, hexVal c, hexVal d with
  | some x, some y, some z, some w => some (((x * 16 + y) * 16 + z) * 16 + w)
  | _, _, _, _ => none

/-- The single-character escapes `json.loads` understands. -/
def escTable (e : Char) : Option Char :=
  if e = '"' then some '"'
  else if e = '\\' then some '\\'
  else if e = '/' then some '/'
  else if e = 'n' then some '\n'
  else if e = 't' then some '\t'
  else if e = 'r' then some '\r'
  else if e = 'b' then some (Char.ofNat 8)
  else if e = 'f' then some (Char.ofNat 12)
  else none

/-- Decode the hex digits after a `\u` escape, combining a UTF-16 surrogate
pair into one code point as `json.loads` does. -/
def decodeU (cs : List Char) : Option (Char × List Char) :=
  match cs with
  | a :: b :: c :: d :: cs3 =>
    (match hex4Val a b c d with
     | none => none
     | some n =>
       if 55296 ≤ n ∧ n ≤ 56319 then
         match cs3 with
         | '\\' :: 'u' :: a2 :: b2 :: c2 :: d2 :: cs4 =>
           (match hex4Val a2 b2 c2 d2 with
            | none => none
            | some m =>
              if 56320 ≤ m ∧ m ≤ 57343 then
                some (Char.ofNat (65536 + (n - 55296) * 1024 + (m - 56320)), cs4)
              else none)
         | _ => none
       else if 56320 ≤ n ∧ n ≤ 57343 then none
       else some (Char.ofNat n, cs3))
  | _ => none

/-- Scan a JSON string body after the opening quote, unescaping as `json.loads`
does; returns the content and the characters after the closing quote.  The
fuel only needs to exceed the number of scanned characters. -/
def parseStrAux : Nat → List Char → List Char → Option (List Char × List Char)
  | 0, _, _ => none
  | _ + 1, _, [] => none
  | fuel + 1, acc, c :: cs =>
    if c = '"' then some (acc.reverse, cs)
    else if c = '\\' then
      match cs with
      | [] => none
      | e :: cs2 =>
        if e = 'u' then
          match decodeU cs2 with
          | some p => parseStrAux fuel (p.1 :: acc) p.2
          | none => none
        else
          match escTable e with
          | some ch => parseStrAux fuel (ch :: acc) cs2
          | none => none
    else parseStrAux fuel (c :: acc) cs

/-- Greedily scan decimal digits, returning their values and the rest. -/
def takeDigits : List Char → List Nat × List Char
  | [] => ([], [])
  | c :: cs =>
    if isDig c then
      ((c.toNat - 48) :: (takeDigits cs).1, (takeDigits cs).2)
    else ([], c :: cs)

/-- Scan an optional fractional part `.digits`. -/
def parseFracPart : List Char → Option (List Nat × List Char)
  | [] => some ([], [])
  | c :: cs =>
    if c = '.' then
      if (takeDigits cs).1.isEmpty then none else some (takeDigits cs)
    else some ([], c :: cs)

/-- Scan the digits of an exponent, after the `e` and optional sign. -/
def expDigits (sgn : Bool) (cs : List Char) :
    Option (Option (Bool × List Nat) × List Char) :=
  if (takeDigits cs).1.isEmpty then none
  else some (some (sgn, (takeDigits cs).1), (takeDigits cs).2)

/-- Scan an optional exponent part `[eE][+-]?digits`. -/
def parseExpPart : List Char → Option (Option (Bool × List Nat) × List Char)
  | [] => some (none, [])
  | c :: cs =>
    if c = 'e' ∨ c = 'E' then
      match cs with
      | [] => none
      | c2 :: cs2 =>
        if c2 = '+' then expDigits false cs2
        else if c2 = '-' then expDigits true cs2
        else expDigits false (c2 :: cs2)
    else some (none, c :: cs)

/-- Scan a JSON number literal: optional sign, integer digits, optional
fraction, optional exponent. -/
def parseNumAfterSign (neg : Bool) (cs1 : List Char) : Option (JNum × List Char) :=
  if (takeDigits cs1).1.isEmpty then none
  else
    match parseFracPart (takeDigits cs1).2 with
    | none => none
    | some q =>
      match parseExpPart q.2 with
      | none => none
      | some r => some (⟨neg, (takeDigits cs1).1, q.1, r.1⟩, r.2)

/-- Scan a JSON number literal. -/
def parseNumber (cs : List Char) : Option (JNum × List Char) :=
  match cs with
  | [] => none
  | c :: r =>
    if c = '-' then parseNumAfterSign true r
    else parseNumAfterSign false (c :: r)

mutual

/-- Parse one JSON value (fuel-indexed; fuel is consumed once per nested
value, so any fuel larger than the node count of the value suffices). -/
def parseV : Nat → List Char → Option (Json × List Char)
  | 0, _ => none
  | fuel + 1, cs =>
    match skipWs cs with
    | [] => none
    | c :: r =>
      if c = 'n' then
        match r with
        | 'u' :: 'l' :: 'l' :: r2 => some (.null, r2)
        | _ => none
      else if c = 't' then
        match r with
        | 'r' :: 'u' :: 'e' :: r2 => some (.bool true, r2)
        | _ => none
      else if c = 'f' then
        match r with
        | 'a' :: 'l' :: 's' :: 'e' :: r2 => some (.bool false, r2)
        | _ => none
      else if c = '"' then
        (parseStrAux (r.length + 1) [] r).map fun sk => (Json.str (String.mk sk.1), sk.2)
      else if c = '[' then
        match skipWs r with
        | [] => none
        | c2 :: r2 =>
          if c2 = ']' then some (.arr .nil, r2)
          else
            (parseV fuel (c2 :: r2)).bind fun p =>
              (parseElems fuel p.2).map fun q => (Json.arr (JArr.cons p.1 q.1), q.2)
      else if c = '\x7b' then
        match skipWs r with
        | [] => none
        | c2 :: r2 =>
          if c2 = '\x7d' then some (.obj .nil, r2)
          else
            (parseOneField fuel (c2 :: r2)).bind fun t =>
              (parseFields fuel t.2.2).map fun q => (Json.obj (JObj.cons t.1 t.2.1 q.1), q.2)
      else if c = '-' ∨ isDig c then
        (parseNumber (c :: r)).map fun p => (Json.num p.1, p.2)
      else none

/-- Parse one `"key": value` object field. -/
def parseOneField : Nat → List Char → Option (String × Json × List Char)
  | 0, _ => none
  | fuel + 1, cs =>
    match skipWs cs with
    | [] => none
    | c :: r =>
      if c = '"' then
        (parseStrAux (r.length + 1) [] r).bind fun sk =>
          match skipWs sk.2 with
          | [] => none
          | c2 :: r2 =>
            if c2 = ':' then
              (parseV fuel r2).map fun p => (String.mk sk.1, p.1, p.2)
            else none
      else none

/-- Parse the `, element ... ]` tail of an array. -/
def parseElems : Nat → List Char → Option (JArr × List Char)
  | 0, _ => none
  | fuel + 1, cs =>
    match skipWs cs with
    | [] => none
    | c :: r =>
      if c = ']' then some (.nil, r)
      else if c = ',' then
        (parseV fuel r).bind fun p =>
          (parseElems fuel p.2).map fun q => (JArr.cons p.1 q.1, q.2)
      else none

/-- Parse the `, "key": value ... }` tail of an object. -/
def parseFields : Nat → List Char → Option (JObj × List Char)
  | 0, _ => none
  | fuel + 1, cs =>
    match skipWs cs with
    | [] => none
    | c :: r =>
      if c = '\x7d' then some (.nil, r)
      else if c = ',' then
        (parseOneField fuel r).bind fun t =>
          (parseFields fuel t.2.2).map fun q => (JObj.cons t.1 t.2.1 q.1, q.2)
      else none

end

/-- `json.loads`: parse a whole string as one JSON value (allowing surrounding
whitespace, rejecting trailing content). -/
def parseJson (s : String) : Option Json :=
  match parseV (s.length + 1) s.data with
  | some (v, rest) => if (skipWs rest).isEmpty then some v else none
  | none => none

example : parseJson "not json" = none := rfl

example : parseJson "null" = some .null := rfl

example : parseJson " [1, true] " =
    some (.arr (.cons (.num ⟨false, [1], [], none⟩) (.cons (.bool true) .nil))) := rfl

example : parseJson "\x7b\"a\": -2.50e+3\x7d" =
    some (.obj (.cons "a" (.num ⟨true, [2], [5, 0], some (false, [3])⟩) .nil)) := rfl

example : parseJson "\"a\\u00e9\\ud83d\\ude00b\"" =
    some (.str (String.mk ['a', Char.ofNat 233, Char.ofNat 128512, 'b'])) := rfl

example : dumps (.arr (.cons (.num ⟨false, [1], [], none⟩) (.cons (.bool true) .nil))) =
    "[\n    1,\n    true\n]" := rfl

example : parseJson (dumps (.obj (.cons "a" (.str "x\ny") (.cons "b" (.arr .nil) .nil)))) =
    some (.obj (.cons "a" (.str "x\ny") (.cons "b" (.arr .nil) .nil))) := rfl

/-! ## Character-level facts -/

theorem charOfNat_toNat (c : Char) : Char.ofNat c.toNat = c := by
  have hv : Nat.isValidChar c.toNat := by
    rcases c.valid with h | ⟨h1, h2⟩
    · exact Or.inl (UInt32.toNat_lt_of_lt (by decide) h)
    · exact Or.inr ⟨UInt32.lt_toNat_of_lt (by decide) h1, UInt32.toNat_lt_of_lt (by decide) h2⟩
  apply Char.eq_of_val_eq
  unfold Char.ofNat
  rw [dif_pos hv]
  show UInt32.mk (BitVec.ofNatLt c.toNat _) = c.val
  congr 1

theorem charToNat_ofNat (n : Nat) (h : Nat.isValidChar n) : (Char.ofNat n).toNat = n := by
  unfold Char.ofNat
  rw [dif_pos h]
  rfl

theorem toNat_digitChar (d : Nat) (h : d < 10) : (digitChar d).toNat = 48 + d := by
  interval_cases d <;> decide

theorem isDig_digitChar (d : Nat) (h : d < 10) : isDig (digitChar d) = true := by
  interval_cases d <;> decide

theorem isWs_digitChar (d : Nat) (h : d < 10) : isWs (digitChar d) = false := by
  interval_cases d <;> decide

theorem hexVal_hexDigitChar (d : Nat) (h : d < 16) : hexVal (hexDigitChar d) = some d := by
  interval_cases d <;> decide

/-! ## Whitespace lemmas -/

theorem skipWs_cons_not (c : Char) (cs : List Char) (h : isWs c = false) :
    skipWs (c :: cs) = c :: cs := by
  simp [skipWs, h]

theorem skipWs_cons_ws (c : Char) (cs : List Char) (h : isWs c = true) :
    skipWs (c :: cs) = skipWs cs := by
  simp [skipWs, h]

theorem skipWs_replicate (k : Nat) (cs : List Char) :
    skipWs (List.replicate k ' ' ++ cs) = skipWs cs := by
  induction k with
  | zero => rfl
  | succ n ih =>
      rw [List.replicate_succ, List.cons_append, skipWs_cons_ws _ _ (by decide)]
      exact ih

theorem skipWs_ind (lvl : Nat) (cs : List Char) : skipWs (ind lvl ++ cs) = skipWs cs :=
  skipWs_replicate _ _

theorem skipWs_idem (cs : List Char) : skipWs (skipWs cs) = skipWs cs := by
  induction cs with
  | nil => rfl
  | cons c cs ih =>
      by_cases h : isWs c = true
      · rw [skipWs_cons_ws _ _ h]; exact ih
      · have h' : isWs c = false := by simpa using h
        rw [skipWs_cons_not _ _ h', skipWs_cons_not _ _ h']

theorem parseV_skipWs (fuel : Nat) (cs : List Char) :
    parseV fuel (skipWs cs) = parseV fuel cs := by
  cases fuel with
  | zero => rfl
  | succ f => simp only [parseV, skipWs_idem]

/-! ## String scanning round-trip -/

theorem parseStrAux_quote (f : Nat) (acc cs : List Char) :
    parseStrAux (f + 1) acc ('"' :: cs) = some (acc.reverse, cs) := rfl

theorem parseStrAux_plain (f : Nat) (acc cs : List Char) (c : Char)
    (h1 : ¬ c = '"') (h2 : ¬ c = '\\') :
    parseStrAux (f + 1) acc (c :: cs) = parseStrAux f (c :: acc) cs := by
  simp only [parseStrAux, if_neg h1, if_neg h2]

theorem parseStrAux_u (f : Nat) (acc cs2 : List Char) :
    parseStrAux (f + 1) acc ('\\' :: 'u' :: cs2) =
      (match decodeU cs2 with
       | some p => parseStrAux f (p.1 :: acc) p.2
       | none => none) := rfl

theorem hex4Val_hex4 (n : Nat) (h : n < 65536) :
    hex4Val (hexDigitChar (n / 4096 % 16)) (hexDigitChar (n / 256 % 16))
      (hexDigitChar (n / 16 % 16)) (hexDigitChar (n % 16)) = some n := by
  have h16 : ∀ m : Nat, m % 16 < 16 := fun m => Nat.mod_lt _ (by norm_num)
  simp only [hex4Val, hexVal_hexDigitChar _ (h16 _)]
  congr 1
  omega

theorem decodeU_hex4 (n : Nat) (h : n < 55296) (tail : List Char) :
    decodeU (hex4 n ++ tail) = some (Char.ofNat n, tail) := by
  simp only [hex4, List.cons_append, List.nil_append, decodeU,
    hex4Val_hex4 n (by omega : n < 65536)]
  rw [if_neg (show ¬ (55296 ≤ n ∧ n ≤ 56319) by omega),
      if_neg (show ¬ (56320 ≤ n ∧ n ≤ 57343) by omega)]

theorem escapeChar_step (f : Nat) (c : Char) (acc tail : List Char) :
    parseStrAux (f + 1) acc (escapeChar c ++ tail) = parseStrAux f (c :: acc) tail := by
  by_cases h1 : c = '"'
  · subst h1; rfl
  by_cases h2 : c = '\\'
  · subst h2; rfl
  by_cases h3 : c = '\n'
  · subst h3; rfl
  by_cases h4 : c = '\t'
  · subst h4; rfl
  by_cases h5 : c = '\r'
  · subst h5; rfl
  by_cases h6 : c = Char.ofNat 8
  · subst h6; rfl
  by_cases h7 : c = Char.ofNat 12
  · subst h7; rfl
  by_cases h8 : c.toNat < 32
  · have hesc : escapeChar c = '\\' :: 'u' :: hex4 c.toNat := by
      rw [escapeChar, if_neg h1, if_neg h2, if_neg h3, if_neg h4, if_neg h5, if_neg h6,
        if_neg h7, if_pos h8]
    rw [hesc, List.cons_append, List.cons_append, parseStrAux_u,
      decodeU_hex4 c.toNat (by omega), charOfNat_toNat]
  · have hesc : escapeChar c = [c] := by
      rw [escapeChar, if_neg h1, if_neg h2, if_neg h3, if_neg h4, if_neg h5, if_neg h6,
        if_neg h7, if_neg h8]
    rw [hesc, List.cons_append, List.nil_append]
    exact parseStrAux_plain f acc tail c h1 h2

theorem parseStrAux_complete (s : List Char) : ∀ (f : Nat) (acc tail : List Char),
    s.length + 1 ≤ f →
    parseStrAux f acc (escapeList s ++ '"' :: tail) = some (acc.reverse ++ s, tail) := by
  induction s with
  | nil =>
      intro f acc tail hf
      cases f with
      | zero => omega
      | succ g => simp [escapeList, parseStrAux_quote]
  | cons c s ih =>
      intro f acc tail hf
      cases f with
      | zero => omega
      | succ g =>
          rw [escapeList, List.append_assoc, escapeChar_step]
          rw [ih g (c :: acc) tail (by simp only [List.length_cons] at hf; omega)]
          simp [List.reverse_cons, List.append_assoc]

/-! ## Number round-trip -/

/-- All entries are digit values. -/
def digitsOk (ds : List Nat) : Bool := ds.all (fun d => decide (d < 10))

/-- A `JNum` in the image of number parsing: nonempty integer digits, digit
values everywhere, nonempty exponent digits when an exponent is present. -/
def numWF (n : JNum) : Bool :=
  !n.ip.isEmpty && digitsOk n.ip && digitsOk n.fp &&
    (match n.exp with
     | none => true
     | some p => !p.2.isEmpty && digitsOk p.2)

/-- A character that cannot continue a number literal. -/
def numStopChar (c : Char) : Bool :=
  !(isDig c) && !(c == '.') && !(c == 'e') && !(c == 'E') && !(c == '+') && !(c == '-')

/-- The next character (if any) cannot continue a number literal. -/
def numStop : List Char → Bool
  | [] => true
  | c :: _ => numStopChar c

/-- The next character (if any) is not a digit. -/
def headNotDig : List Char → Bool
  | [] => true
  | c :: _ => !(isDig c)

theorem numStopChar_spec (c : Char) (h : numStopChar c = true) :
    isDig c = false ∧ c ≠ '.' ∧ c ≠ 'e' ∧ c ≠ 'E' ∧ c ≠ '+' ∧ c ≠ '-' := by
  simp only [numStopChar, Bool.and_eq_true, Bool.not_eq_true', beq_eq_false_iff_ne, ne_eq]
    at h
  exact ⟨h.1.1.1.1.1, h.1.1.1.1.2, h.1.1.1.2, h.1.1.2, h.1.2, h.2⟩

theorem headNotDig_of_numStop (cs : List Char) (h : numStop cs = true) :
    headNotDig cs = true := by
  cases cs with
  | nil => rfl
  | cons c r =>
      have := numStopChar_spec c h
      simp [headNotDig, this.1]

theorem takeDigits_app (ds : List Nat) (rest : List Char)
    (hds : digitsOk ds = true) (hrest : headNotDig rest = true) :
    takeDigits (ds.map digitChar ++ rest) = (ds, rest) := by
  induction ds with
  | nil =>
      cases rest with
      | nil => rfl
      | cons c r =>
          have hc : isDig c = false := by
            simpa [headNotDig] using hrest
          simp [takeDigits, hc]
  | cons d ds ih =>
      have hd : d < 10 := by
        simp only [digitsOk, List.all_cons, Bool.and_eq_true, decide_eq_true_eq] at hds
        exact hds.1
      have hds' : digitsOk ds = true := by
        simp only [digitsOk, List.all_cons, Bool.and_eq_true] at hds
        exact hds.2
      simp only [List.map_cons, List.cons_append, takeDigits, isDig_digitChar d hd, if_true,
        List.append_eq]
      rw [ih hds']
      simp [toNat_digitChar d hd]

/-- The next character (if any) is not a dot. -/
def headNotDot : List Char → Bool
  | [] => true
  | c :: _ => !(c == '.')

theorem parseFracPart_none (cs : List Char) (h : headNotDot cs = true) :
    parseFracPart cs = some ([], cs) := by
  cases cs with
  | nil => rfl
  | cons c r =>
      have hc : ¬ c = '.' := by simpa [headNotDot] using h
      simp [parseFracPart, hc]

theorem parseFracPart_app (fp : List Nat) (rest : List Char)
    (hfp : digitsOk fp = true) (hne : fp ≠ []) (hrest : headNotDig rest = true) :
    parseFracPart ('.' :: (fp.map digitChar ++ rest)) = some (fp, rest) := by
  simp only [parseFracPart, if_pos rfl, takeDigits_app fp rest hfp hrest]
  cases fp with
  | nil => exact absurd rfl hne
  | cons d ds => simp

theorem expDigits_app (sgn : Bool) (ds : List Nat) (rest : List Char)
    (hds : digitsOk ds = true) (hne : ds ≠ []) (hrest : headNotDig rest = true) :
    expDigits sgn (ds.map digitChar ++ rest) = some (some (sgn, ds), rest) := by
  simp only [expDigits, takeDigits_app ds rest hds hrest]
  cases ds with
  | nil => exact absurd rfl hne
  | cons d ds => simp

theorem parseExpPart_none (cs : List Char) (h : numStop cs = true) :
    parseExpPart cs = some (none, cs) := by
  cases cs with
  | nil => rfl
  | cons c r =>
      have spec := numStopChar_spec c h
      simp only [parseExpPart]
      rw [if_neg]
      rintro (he | he)
      · exact spec.2.2.1 he
      · exact spec.2.2.2.1 he

theorem parseExpPart_app (sgn : Bool) (ds : List Nat) (rest : List Char)
    (hds : digitsOk ds = true) (hne : ds ≠ []) (hrest : numStop rest = true) :
    parseExpPart (expStr (some (sgn, ds)) ++ rest) = some (some (sgn, ds), rest) := by
  have hnd : headNotDig rest = true := headNotDig_of_numStop rest hrest
  cases sgn with
  | true =>
      have he : expStr (some (true, ds)) ++ rest =
          'e' :: '-' :: (ds.map digitChar ++ rest) := by
        simp [expStr]
      have h2 : parseExpPart ('e' :: '-' :: (ds.map digitChar ++ rest)) =
          expDigits true (ds.map digitChar ++ rest) := rfl
      rw [he, h2]
      exact expDigits_app true ds rest hds hne hnd
  | false =>
      have he : expStr (some (false, ds)) ++ rest =
          'e' :: '+' :: (ds.map digitChar ++ rest) := by
        simp [expStr]
      have h2 : parseExpPart ('e' :: '+' :: (ds.map digitChar ++ rest)) =
          expDigits false (ds.map digitChar ++ rest) := rfl
      rw [he, h2]
      exact expDigits_app false ds rest hds hne hnd

theorem numWF_spec (neg : Bool) (ip fp : List Nat) (ex : Option (Bool × List Nat))
    (h : numWF ⟨neg, ip, fp, ex⟩ = true) :
    ip ≠ [] ∧ digitsOk ip = true ∧ digitsOk fp = true ∧
      (∀ sgn ds, ex = some (sgn, ds) → ds ≠ [] ∧ digitsOk ds = true) := by
  simp only [numWF, Bool.and_eq_true, Bool.not_eq_true', List.isEmpty_eq_false] at h
  refine ⟨h.1.1.1, h.1.1.2, h.1.2, ?_⟩
  intro sgn ds hex
  subst hex
  simp only [Bool.and_eq_true, Bool.not_eq_true', List.isEmpty_eq_false] at h
  exact h.2

theorem parseNumAfterSign_complete (neg : Bool) (ip fp : List Nat)
    (ex : Option (Bool × List Nat)) (rest : List Char)
    (hwf : numWF ⟨neg, ip, fp, ex⟩ = true) (hrest : numStop rest = true) :
    parseNumAfterSign neg (ip.map digitChar ++ (fracStr fp ++ (expStr ex ++ rest))) =
      some (⟨neg, ip, fp, ex⟩, rest) := by
  obtain ⟨hip, dip, dfp, hex⟩ := numWF_spec neg ip fp ex hwf
  have hndE : headNotDig (expStr ex ++ rest) = true := by
    cases ex with
    | none => simpa [expStr] using headNotDig_of_numStop rest hrest
    | some p =>
        obtain ⟨sgn, ds⟩ := p
        simp [expStr, headNotDig, isDig]
  have hndotE : headNotDot (expStr ex ++ rest) = true := by
    cases ex with
    | none =>
        cases hh : rest with
        | nil => simp [expStr, headNotDot]
        | cons c r =>
            rw [hh] at hrest
            simp [expStr, headNotDot, (numStopChar_spec c hrest).2.1]
    | some p =>
        obtain ⟨sgn, ds⟩ := p
        simp [expStr, headNotDot]
  have hnd1 : headNotDig (fracStr fp ++ (expStr ex ++ rest)) = true := by
    cases fp with
    | nil => simpa [fracStr] using hndE
    | cons d ds => simp [fracStr, headNotDig, isDig]
  have hfrac : parseFracPart (fracStr fp ++ (expStr ex ++ rest)) =
      some (fp, expStr ex ++ rest) := by
    cases fp with
    | nil =>
        simp only [fracStr, List.isEmpty_nil, if_pos rfl, List.nil_append]
        exact parseFracPart_none _ hndotE
    | cons d ds =>
        simp only [fracStr, List.isEmpty_cons, List.cons_append]
        rw [if_neg (by simp : ¬ (false = true))]
        exact parseFracPart_app (d :: ds) _ dfp (by simp) hndE
  have hexp : parseExpPart (expStr ex ++ rest) = some (ex, rest) := by
    cases ex with
    | none => simpa [expStr] using parseExpPart_none rest hrest
    | some p =>
        obtain ⟨sgn, ds⟩ := p
        obtain ⟨hne, hdsok⟩ := hex sgn ds rfl
        exact parseExpPart_app sgn ds rest hdsok hne hrest
  simp only [parseNumAfterSign, takeDigits_app ip _ dip hnd1]
  cases ip with
  | nil => exact absurd rfl hip
  | cons i ips =>
      simp only [List.isEmpty_cons, hfrac, hexp]
      rw [if_neg (by simp : ¬ (false = true))]

theorem parseNumber_complete (n : JNum) (rest : List Char)
    (hwf : numWF n = true) (hrest : numStop rest = true) :
    parseNumber (printNum n ++ rest) = some (n, rest) := by
  obtain ⟨neg, ip, fp, ex⟩ := n
  obtain ⟨hip, dip, _, _⟩ := numWF_spec neg ip fp ex hwf
  have hmain := parseNumAfterSign_complete neg ip fp ex rest hwf hrest
  cases neg with
  | true =>
      simp only [printNum, if_pos rfl, List.cons_append, List.nil_append, List.append_assoc]
      simp only [parseNumber, if_pos rfl]
      simpa [List.append_assoc] using hmain
  | false =>
      simp only [printNum]
      rw [if_neg (by simp : ¬ (false = true)), List.nil_append]
      cases hi : ip with
      | nil => exact absurd hi hip
      | cons i ips =>
          subst hi
          have hd : i < 10 := by
            simp only [digitsOk, List.all_cons, Bool.and_eq_true, decide_eq_true_eq] at dip
            exact dip.1
          have hnotminus : ¬ digitChar i = '-' := by
            intro he
            have := isDig_digitChar i hd
            rw [he] at this
            exact absurd this (by decide)
          simp only [List.map_cons, List.cons_append, List.append_assoc]
          simp only [parseNumber, if_neg hnotminus]
          simpa [List.append_assoc] using hmain

/-! ## Fuel and well-formedness of JSON trees -/

mutual

/-- Fuel sufficient for `parseV` on the printed form of a value. -/
def jfuel : Json → Nat
  | .arr (.cons h t) => 1 + jfuel h + afuel t
  | .obj (.cons _ v t) => 1 + (1 + jfuel v) + ofuel t
  | _ => 1

/-- Fuel sufficient for `parseElems` on a printed array tail. -/
def afuel : JArr → Nat
  | .nil => 1
  | .cons h t => 1 + jfuel h + afuel t

/-- Fuel sufficient for `parseFields` on a printed object tail. -/
def ofuel : JObj → Nat
  | .nil => 1
  | .cons _ v t => 1 + (1 + jfuel v) + ofuel t

end

theorem jfuel_pos (v : Json) : 1 ≤ jfuel v := by
  cases v with
  | arr xs => cases xs <;> simp [jfuel] <;> omega
  | obj fs => cases fs <;> simp [jfuel] <;> omega
  | _ => simp [jfuel]

theorem afuel_pos (xs : JArr) : 1 ≤ afuel xs := by
  cases xs <;> simp [afuel] <;> omega

theorem ofuel_pos (fs : JObj) : 1 ≤ ofuel fs := by
  cases fs <;> simp [ofuel] <;> omega

mutual

/-- Well-formed JSON trees: all number literals are well-formed.  Every value
produced by the parser satisfies this, and the printer/parser round-trip is
proved for such values. -/
def jsonWF : Json → Bool
  | .null => true
  | .bool _ => true
  | .num n => numWF n
  | .str _ => true
  | .arr xs => arrWF xs
  | .obj fs => objWF fs

/-- `jsonWF` for every element. -/
def arrWF : JArr → Bool
  | .nil => true
  | .cons h t => jsonWF h && arrWF t

/-- `jsonWF` for every field value. -/
def objWF : JObj → Bool
  | .nil => true
  | .cons _ v t => jsonWF v && objWF t

end

/-! ## Dispatch lemmas for the value parser -/

theorem parseV_str (f : Nat) (r : List Char) :
    parseV (f + 1) ('"' :: r) =
      (parseStrAux (r.length + 1) [] r).map fun sk => (Json.str (String.mk sk.1), sk.2) := rfl

theorem parseV_lbrack (f : Nat) (r : List Char) :
    parseV (f + 1) ('[' :: r) =
      (match skipWs r with
       | [] => none
       | c2 :: r2 =>
         if c2 = ']' then some (.arr .nil, r2)
         else
           (parseV f (c2 :: r2)).bind fun p =>
             (parseElems f p.2).map fun q => (Json.arr (JArr.cons p.1 q.1), q.2)) := rfl

theorem parseV_lbrace (f : Nat) (r : List Char) :
    parseV (f + 1) ('\x7b' :: r) =
      (match skipWs r with
       | [] => none
       | c2 :: r2 =>
         if c2 = '\x7d' then some (.obj .nil, r2)
         else
           (parseOneField f (c2 :: r2)).bind fun t =>
             (parseFields f t.2.2).map fun q => (Json.obj (JObj.cons t.1 t.2.1 q.1), q.2)) := rfl

theorem parseElems_succ (f : Nat) (cs : List Char) :
    parseElems (f + 1) cs =
      (match skipWs cs with
       | [] => none
       | c :: r =>
         if c = ']' then some (.nil, r)
         else if c = ',' then
           (parseV f r).bind fun p =>
             (parseElems f p.2).map fun q => (JArr.cons p.1 q.1, q.2)
         else none) := rfl

theorem parseFields_succ (f : Nat) (cs : List Char) :
    parseFields (f + 1) cs =
      (match skipWs cs with
       | [] => none
       | c :: r =>
         if c = '\x7d' then some (.nil, r)
         else if c = ',' then
           (parseOneField f r).bind fun t =>
             (parseFields f t.2.2).map fun q => (JObj.cons t.1 t.2.1 q.1, q.2)
         else none) := rfl

theorem parseOneField_succ (f : Nat) (cs : List Char) :
    parseOneField (f + 1) cs =
      (match skipWs cs with
       | [] => none
       | c :: r =>
         if c = '"' then
           (parseStrAux (r.length + 1) [] r).bind fun sk =>
             match skipWs sk.2 with
             | [] => none
             | c2 :: r2 =>
               if c2 = ':' then
                 (parseV f r2).map fun p => (String.mk sk.1, p.1, p.2)
               else none
         else none) := rfl

theorem parseOneField_skipWs (fuel : Nat) (cs : List Char) :
    parseOneField fuel (skipWs cs) = parseOneField fuel cs := by
  cases fuel with
  | zero => rfl
  | succ f => simp only [parseOneField, skipWs_idem]

theorem parseV_numHead (f : Nat) (c : Char) (r : List Char)
    (h : c = '-' ∨ isDig c = true) :
    parseV (f + 1) (c :: r) = (parseNumber (c :: r)).map fun p => (Json.num p.1, p.2) := by
  rcases h with rfl | hd
  · rfl
  · have h48 : 48 ≤ c.toNat ∧ c.toNat ≤ 57 := by
      simpa [isDig] using hd
    have hws : isWs c = false := by
      simp only [isWs, Bool.or_eq_false_iff, beq_eq_false_iff_ne, ne_eq]
      omega
    have hn : ¬ c = 'n' := fun he => by subst he; revert h48; decide
    have ht : ¬ c = 't' := fun he => by subst he; revert h48; decide
    have hf2 : ¬ c = 'f' := fun he => by subst he; revert h48; decide
    have hq : ¬ c = '"' := fun he => by subst he; revert h48; decide
    have hlb : ¬ c = '[' := fun he => by subst he; revert h48; decide
    have hbr : ¬ c = '\x7b' := fun he => by subst he; revert h48; decide
    simp only [parseV]
    rw [skipWs_cons_not _ _ hws]
    simp only [if_neg hn, if_neg ht, if_neg hf2, if_neg hq, if_neg hlb, if_neg hbr,
      if_pos (Or.inr hd)]

/-! ## Head shape of printed values -/

/-- A character that may begin a printed value: not whitespace, and not a
closing bracket or brace. -/
def startOk (c : Char) : Bool := !(isWs c) && !(c == ']') && !(c == '\x7d')

theorem startOk_spec (c : Char) (h : startOk c = true) :
    isWs c = false ∧ ¬ c = ']' ∧ ¬ c = '\x7d' := by
  simp only [startOk, Bool.and_eq_true, Bool.not_eq_true', beq_eq_false_iff_ne, ne_eq] at h
  exact ⟨h.1.1, h.1.2, h.2⟩

theorem startOk_digitChar (d : Nat) (h : d < 10) : startOk (digitChar d) = true := by
  interval_cases d <;> decide

theorem printV_head (lvl : Nat) (v : Json) (hwf : jsonWF v = true) :
    ∃ c cs, printV lvl v = c :: cs ∧ startOk c = true := by
  cases v with
  | num n =>
      obtain ⟨neg, ip, fp, ex⟩ := n
      have hn : numWF ⟨neg, ip, fp, ex⟩ = true := by simpa [jsonWF] using hwf
      obtain ⟨hip, dip, _, _⟩ := numWF_spec _ _ _ _ hn
      cases neg with
      | true =>
          refine ⟨'-', List.map digitChar ip ++ (fracStr fp ++ expStr ex), ?_, rfl⟩
          simp [printV, printNum, List.append_assoc]
      | false =>
          cases hip2 : ip with
          | nil => exact absurd hip2 hip
          | cons d ds =>
              subst hip2
              have hd : d < 10 := by
                simp only [digitsOk, List.all_cons, Bool.and_eq_true, decide_eq_true_eq] at dip
                exact dip.1
              refine ⟨digitChar d, List.map digitChar ds ++ (fracStr fp ++ expStr ex),
                by simp [printV, printNum, List.append_assoc], startOk_digitChar d hd⟩
  | bool b => cases b <;> exact ⟨_, _, rfl, rfl⟩
  | arr xs => cases xs <;> exact ⟨_, _, rfl, rfl⟩
  | obj fs => cases fs <;> exact ⟨_, _, rfl, rfl⟩
  | _ => exact ⟨_, _, rfl, rfl⟩

/-! ## Stop characters after printed list and field tails -/

theorem numStop_printElems (lvl : Nat) (t : JArr) (X : List Char) :
    numStop (printElems lvl t ++ '\n' :: X) = true := by
  cases t <;> rfl

theorem numStop_printFields (lvl : Nat) (t : JObj) (X : List Char) :
    numStop (printFields lvl t ++ '\n' :: X) = true := by
  cases t <;> rfl

/-! ## Length bounds -/

theorem escapeChar_len (c : Char) : 1 ≤ (escapeChar c).length := by
  unfold escapeChar
  split_ifs <;> simp [hex4]

theorem escapeList_len (s : List Char) : s.length ≤ (escapeList s).length := by
  induction s with
  | nil => simp [escapeList]
  | cons c s ih =>
      have := escapeChar_len c
      simp only [escapeList, List.length_append, List.length_cons]
      omega

theorem parseOneField_quote (f : Nat) (r : List Char) :
    parseOneField (f + 1) ('"' :: r) =
      ((parseStrAux (r.length + 1) [] r).bind fun sk =>
        match skipWs sk.2 with
        | [] => none
        | c2 :: r2 =>
          if c2 = ':' then (parseV f r2).map fun p => (String.mk sk.1, p.1, p.2)
          else none) := rfl

/-! ## Parser completeness on printed output -/

mutual

theorem parseV_complete (v : Json) (lvl : Nat) (rest : List Char) (fuel : Nat)
    (hwf : jsonWF v = true) (hfuel : jfuel v ≤ fuel) (hrest : numStop rest = true) :
    parseV fuel (printV lvl v ++ rest) = some (v, rest) := by
  have hpos := jfuel_pos v
  cases fuel with
  | zero => omega
  | succ f => ?_
  cases v with
  | null => rfl
  | bool b => cases b <;> rfl
  | str s =>
      obtain ⟨sd⟩ := s
      have hassoc : printV lvl (.str ⟨sd⟩) ++ rest =
          '"' :: (escapeList sd ++ ('"' :: rest)) := by
        simp [printV, List.append_assoc]
      rw [hassoc, parseV_str]
      have hlen : sd.length + 1 ≤ (escapeList sd ++ ('"' :: rest)).length + 1 := by
        have := escapeList_len sd
        simp only [List.length_append, List.length_cons]
        omega
      rw [parseStrAux_complete sd _ [] rest hlen]
      simp
  | num n =>
      have hnwf : numWF n = true := by simpa [jsonWF] using hwf
      obtain ⟨neg, ip, fp, ex⟩ := n
      obtain ⟨hip, dip, _, _⟩ := numWF_spec _ _ _ _ hnwf
      have hprint : printV lvl (.num ⟨neg, ip, fp, ex⟩) = printNum ⟨neg, ip, fp, ex⟩ := rfl
      rw [hprint]
      cases neg with
      | true =>
          have h1 : printNum ⟨true, ip, fp, ex⟩ ++ rest =
              '-' :: (List.map digitChar ip ++ (fracStr fp ++ (expStr ex ++ rest))) := by
            simp [printNum, List.append_assoc]
          rw [h1, parseV_numHead f '-' _ (Or.inl rfl), ← h1,
            parseNumber_complete _ rest hnwf hrest]
          simp
      | false =>
          cases hip2 : ip with
          | nil => exact absurd hip2 hip
          | cons d ds =>
              subst hip2
              have hd : d < 10 := by
                simp only [digitsOk, List.all_cons, Bool.and_eq_true, decide_eq_true_eq] at dip
                exact dip.1
              have h1 : printNum ⟨false, d :: ds, fp, ex⟩ ++ rest =
                  digitChar d ::
                    (List.map digitChar ds ++ (fracStr fp ++ (expStr ex ++ rest))) := by
                simp [printNum, List.append_assoc]
              rw [h1, parseV_numHead f (digitChar d) _ (Or.inr (isDig_digitChar d hd)), ← h1,
                parseNumber_complete _ rest hnwf hrest]
              simp
  | arr xs =>
      cases xs with
      | nil => rfl
      | cons h t =>
          have hwf2 : jsonWF h = true ∧ arrWF t = true := by
            simpa [jsonWF, arrWF, Bool.and_eq_true] using hwf
          have hfs : jfuel (Json.arr (JArr.cons h t)) = 1 + jfuel h + afuel t := rfl
          obtain ⟨c, cs, hc, hok⟩ := printV_head (lvl + 1) h hwf2.1
          obtain ⟨hcw, hcb, -⟩ := startOk_spec c hok
          have h1 : printV lvl (.arr (.cons h t)) ++ rest =
              '[' :: ('\n' :: (ind (lvl + 1) ++ (printV (lvl + 1) h ++
                (printElems (lvl + 1) t ++ '\n' :: (ind lvl ++ (']' :: rest)))))) := by
            simp [printV, List.append_assoc]
          rw [h1, parseV_lbrack]
          have hskip : skipWs ('\n' :: (ind (lvl + 1) ++ (printV (lvl + 1) h ++
              (printElems (lvl + 1) t ++ '\n' :: (ind lvl ++ (']' :: rest)))))) =
              c :: (cs ++ (printElems (lvl + 1) t ++ '\n' :: (ind lvl ++ (']' :: rest)))) := by
            rw [skipWs_cons_ws _ _ (by decide), skipWs_ind, hc, List.cons_append,
              skipWs_cons_not _ _ hcw]
          rw [hskip]
          simp only [if_neg hcb]
          have hback : c :: (cs ++ (printElems (lvl + 1) t ++ '\n' :: (ind lvl ++ (']' :: rest)))) =
              printV (lvl + 1) h ++
                (printElems (lvl + 1) t ++ '\n' :: (ind lvl ++ (']' :: rest))) := by
            rw [hc, List.cons_append]
          rw [hback, parseV_complete h (lvl + 1) _ f hwf2.1 (by omega)
            (numStop_printElems _ _ _)]
          simp only [Option.some_bind]
          rw [parseElems_complete t lvl rest f hwf2.2 (by omega)]
          simp
  | obj fs =>
      cases fs with
      | nil => rfl
      | cons k v2 t =>
          have hwf2 : jsonWF v2 = true ∧ objWF t = true := by
            simpa [jsonWF, objWF, Bool.and_eq_true] using hwf
          have hfs : jfuel (Json.obj (JObj.cons k v2 t)) = 1 + (1 + jfuel v2) + ofuel t := rfl
          have h1 : printV lvl (.obj (.cons k v2 t)) ++ rest =
              '\x7b' :: ('\n' :: (ind (lvl + 1) ++
                ('"' :: (escapeList k.data ++ ('"' :: ':' :: ' ' :: (printV (lvl + 1) v2 ++
                  (printFields (lvl + 1) t ++ '\n' :: (ind lvl ++ ('\x7d' :: rest))))))))) := by
            simp [printV, List.append_assoc]
          rw [h1, parseV_lbrace]
          have hskip : skipWs ('\n' :: (ind (lvl + 1) ++
              ('"' :: (escapeList k.data ++ ('"' :: ':' :: ' ' :: (printV (lvl + 1) v2 ++
                (printFields (lvl + 1) t ++ '\n' :: (ind lvl ++ ('\x7d' :: rest))))))))) =
              '"' :: (escapeList k.data ++ ('"' :: ':' :: ' ' :: (printV (lvl + 1) v2 ++
                (printFields (lvl + 1) t ++ '\n' :: (ind lvl ++ ('\x7d' :: rest)))))) := by
            rw [skipWs_cons_ws _ _ (by decide), skipWs_ind,
              skipWs_cons_not _ _ (by decide)]
          rw [hskip]
          simp only [if_neg (by decide : ¬ ('"' : Char) = '\x7d')]
          rw [parseOneField_complete k v2 (lvl + 1) _ f hwf2.1 (by omega)
            (numStop_printFields _ _ _)]
          simp only [Option.some_bind]
          rw [parseFields_complete t lvl rest f hwf2.2 (by omega)]
          simp

theorem parseOneField_complete (k : String) (v : Json) (lvl : Nat) (rest : List Char)
    (fuel : Nat) (hwf : jsonWF v = true) (hfuel : 1 + jfuel v ≤ fuel)
    (hrest : numStop rest = true) :
    parseOneField fuel
        ('"' :: (escapeList k.data ++ ('"' :: ':' :: ' ' :: (printV lvl v ++ rest)))) =
      some (k, v, rest) := by
  cases fuel with
  | zero => omega
  | succ f => ?_
  obtain ⟨kd⟩ := k
  rw [parseOneField_quote]
  have hlen : kd.length + 1 ≤
      (escapeList kd ++ ('"' :: ':' :: ' ' :: (printV lvl v ++ rest))).length + 1 := by
    have h0 : (String.mk kd).data = kd := rfl
    have := escapeList_len kd
    simp only [h0, List.length_append, List.length_cons]
    omega
  have h0 : (String.mk kd).data = kd := rfl
  rw [h0, parseStrAux_complete kd _ [] (':' :: ' ' :: (printV lvl v ++ rest)) hlen]
  simp only [Option.some_bind, List.reverse_nil, List.nil_append]
  have hsk2 : skipWs (':' :: ' ' :: (printV lvl v ++ rest)) =
      ':' :: ' ' :: (printV lvl v ++ rest) := skipWs_cons_not _ _ (by decide)
  rw [hsk2]
  simp only [if_pos (show (':' : Char) = ':' from rfl)]
  have hv : parseV f (' ' :: (printV lvl v ++ rest)) = parseV f (printV lvl v ++ rest) := by
    rw [← parseV_skipWs f (' ' :: (printV lvl v ++ rest))]
    obtain ⟨c, cs, hc, hok⟩ := printV_head lvl v hwf
    have hcw := (startOk_spec c hok).1
    rw [skipWs_cons_ws _ _ (by decide), hc, List.cons_append,
      skipWs_cons_not _ _ hcw, ← List.cons_append, ← hc]
  rw [hv, parseV_complete v lvl rest f hwf (by omega) hrest]
  simp

theorem parseElems_complete (xs : JArr) (lvl : Nat) (rest : List Char) (fuel : Nat)
    (hwf : arrWF xs = true) (hfuel : afuel xs ≤ fuel) :
    parseElems fuel (printElems (lvl + 1) xs ++ '\n' :: (ind lvl ++ (']' :: rest))) =
      some (xs, rest) := by
  have hpos := afuel_pos xs
  cases fuel with
  | zero => omega
  | succ f => ?_
  cases xs with
  | nil =>
      rw [show printElems (lvl + 1) .nil ++ '\n' :: (ind lvl ++ (']' :: rest)) =
          '\n' :: (ind lvl ++ (']' :: rest)) from by simp [printElems]]
      rw [parseElems_succ]
      have hskip : skipWs ('\n' :: (ind lvl ++ (']' :: rest))) = ']' :: rest := by
        rw [skipWs_cons_ws _ _ (by decide), skipWs_ind, skipWs_cons_not _ _ (by decide)]
      rw [hskip]
      simp
  | cons h t =>
      have hwf2 : jsonWF h = true ∧ arrWF t = true := by
        simpa [arrWF, Bool.and_eq_true] using hwf
      have hfs : afuel (JArr.cons h t) = 1 + jfuel h + afuel t := rfl
      have h1 : printElems (lvl + 1) (.cons h t) ++ '\n' :: (ind lvl ++ (']' :: rest)) =
          ',' :: ('\n' :: (ind (lvl + 1) ++ (printV (lvl + 1) h ++
            (printElems (lvl + 1) t ++ '\n' :: (ind lvl ++ (']' :: rest)))))) := by
        simp [printElems, List.append_assoc]
      rw [h1, parseElems_succ]
      have hskip : skipWs (',' :: ('\n' :: (ind (lvl + 1) ++ (printV (lvl + 1) h ++
          (printElems (lvl + 1) t ++ '\n' :: (ind lvl ++ (']' :: rest))))))) =
          ',' :: ('\n' :: (ind (lvl + 1) ++ (printV (lvl + 1) h ++
            (printElems (lvl + 1) t ++ '\n' :: (ind lvl ++ (']' :: rest)))))) :=
        skipWs_cons_not _ _ (by decide)
      rw [hskip]
      simp only [if_neg (by decide : ¬ (',' : Char) = ']'),
        if_pos (show (',' : Char) = ',' from rfl)]
      have hv : parseV f ('\n' :: (ind (lvl + 1) ++ (printV (lvl + 1) h ++
          (printElems (lvl + 1) t ++ '\n' :: (ind lvl ++ (']' :: rest)))))) =
          parseV f (printV (lvl + 1) h ++
            (printElems (lvl + 1) t ++ '\n' :: (ind lvl ++ (']' :: rest)))) := by
        rw [← parseV_skipWs]
        obtain ⟨c, cs, hc, hok⟩ := printV_head (lvl + 1) h hwf2.1
        have hcw := (startOk_spec c hok).1
        rw [skipWs_cons_ws _ _ (by decide), skipWs_ind, hc, List.cons_append,
          skipWs_cons_not _ _ hcw, ← List.cons_append, ← hc]
      rw [hv, parseV_complete h (lvl + 1) _ f hwf2.1 (by omega) (numStop_printElems _ _ _)]
      simp only [Option.some_bind]
      rw [parseElems_complete t lvl rest f hwf2.2 (by omega)]
      simp

theorem parseFields_complete (fs : JObj) (lvl : Nat) (rest : List Char) (fuel : Nat)
    (hwf : objWF fs = true) (hfuel : ofuel fs ≤ fuel) :
    parseFields fuel (printFields (lvl + 1) fs ++ '\n' :: (ind lvl ++ ('\x7d' :: rest))) =
      some (fs, rest) := by
  have hpos := ofuel_pos fs
  cases fuel with
  | zero => omega
  | succ f => ?_
  cases fs with
  | nil =>
      rw [show printFields (lvl + 1) .nil ++ '\n' :: (ind lvl ++ ('\x7d' :: rest)) =
          '\n' :: (ind lvl ++ ('\x7d' :: rest)) from by simp [printFields]]
      rw [parseFields_succ]
      have hskip : skipWs ('\n' :: (ind lvl ++ ('\x7d' :: rest))) = '\x7d' :: rest := by
        rw [skipWs_cons_ws _ _ (by decide), skipWs_ind, skipWs_cons_not _ _ (by decide)]
      rw [hskip]
      simp
  | cons k v t =>
      have hwf2 : jsonWF v = true ∧ objWF t = true := by
        simpa [objWF, Bool.and_eq_true] using hwf
      have hfs : ofuel (JObj.cons k v t) = 1 + (1 + jfuel v) + ofuel t := rfl
      have h1 : printFields (lvl + 1) (.cons k v t) ++ '\n' :: (ind lvl ++ ('\x7d' :: rest)) =
          ',' :: ('\n' :: (ind (lvl + 1) ++
            ('"' :: (escapeList k.data ++ ('"' :: ':' :: ' ' :: (printV (lvl + 1) v ++
              (printFields (lvl + 1) t ++ '\n' :: (ind lvl ++ ('\x7d' :: rest))))))))) := by
        simp [printFields, List.append_assoc]
      rw [h1, parseFields_succ]
      have hskip : skipWs (',' :: ('\n' :: (ind (lvl + 1) ++
          ('"' :: (escapeList k.data ++ ('"' :: ':' :: ' ' :: (printV (lvl + 1) v ++
            (printFields (lvl + 1) t ++ '\n' :: (ind lvl ++ ('\x7d' :: rest)))))))))) =
          ',' :: ('\n' :: (ind (lvl + 1) ++
            ('"' :: (escapeList k.data ++ ('"' :: ':' :: ' ' :: (printV (lvl + 1) v ++
              (printFields (lvl + 1) t ++ '\n' :: (ind lvl ++ ('\x7d' :: rest))))))))) :=
        skipWs_cons_not _ _ (by decide)
      rw [hskip]
      simp only [if_neg (by decide : ¬ (',' : Char) = '\x7d'),
        if_pos (show (',' : Char) = ',' from rfl)]
      have hof : parseOneField f ('\n' :: (ind (lvl + 1) ++
          ('"' :: (escapeList k.data ++ ('"' :: ':' :: ' ' :: (printV (lvl + 1) v ++
            (printFields (lvl + 1) t ++ '\n' :: (ind lvl ++ ('\x7d' :: rest))))))))) =
          parseOneField f
            ('"' :: (escapeList k.data ++ ('"' :: ':' :: ' ' :: (printV (lvl + 1) v ++
              (printFields (lvl + 1) t ++ '\n' :: (ind lvl ++ ('\x7d' :: rest))))))) := by
        rw [← parseOneField_skipWs]
        rw [skipWs_cons_ws _ _ (by decide), skipWs_ind, skipWs_cons_not _ _ (by decide)]
      rw [hof, parseOneField_complete k v (lvl + 1) _ f hwf2.1 (by omega)
        (numStop_printFields _ _ _)]
      simp only [Option.some_bind]
      rw [parseFields_complete t lvl rest f hwf2.2 (by omega)]
      simp

end

/-! ## Fuel is covered by the printed length -/

mutual

theorem jfuel_le (v : Json) (lvl : Nat) : jfuel v ≤ (printV lvl v).length + 1 := by
  cases v with
  | null => simp [jfuel, printV]
  | bool b => cases b <;> simp [jfuel, printV]
  | num n => simp [jfuel]
  | str s => simp [jfuel, printV]
  | arr xs =>
      cases xs with
      | nil => simp [jfuel, printV]
      | cons h t =>
          have h1 := jfuel_le h (lvl + 1)
          have h2 := afuel_le t (lvl + 1)
          have h3 : jfuel (Json.arr (JArr.cons h t)) = 1 + jfuel h + afuel t := rfl
          simp only [h3, printV, List.length_cons, List.length_append]
          omega
  | obj fs =>
      cases fs with
      | nil => simp [jfuel, printV]
      | cons k v2 t =>
          have h1 := jfuel_le v2 (lvl + 1)
          have h2 := ofuel_le t (lvl + 1)
          have h3 : jfuel (Json.obj (JObj.cons k v2 t)) = 1 + (1 + jfuel v2) + ofuel t := rfl
          simp only [h3, printV, List.length_cons, List.length_append]
          omega

theorem afuel_le (xs : JArr) (lvl : Nat) : afuel xs ≤ (printElems lvl xs).length + 1 := by
  cases xs with
  | nil => simp [afuel, printElems]
  | cons h t =>
      have h1 := jfuel_le h lvl
      have h2 := afuel_le t lvl
      have h3 : afuel (JArr.cons h t) = 1 + jfuel h + afuel t := rfl
      simp only [h3, printElems, List.length_cons, List.length_append]
      omega

theorem ofuel_le (fs : JObj) (lvl : Nat) : ofuel fs ≤ (printFields lvl fs).length + 1 := by
  cases fs with
  | nil => simp [ofuel, printFields]
  | cons k v t =>
      have h1 := jfuel_le v lvl
      have h2 := ofuel_le t lvl
      have h3 : ofuel (JObj.cons k v t) = 1 + (1 + jfuel v) + ofuel t := rfl
      simp only [h3, printFields, List.length_cons, List.length_append]
      omega

end

/-! ## The round-trip theorem for the `json` module embedding -/

theorem parseJson_dumps (v : Json) (hwf : jsonWF v = true) :
    parseJson (dumps v) = some v := by
  unfold parseJson dumps
  have hlen : (String.mk (printV 0 v)).length = (printV 0 v).length := rfl
  have hdata : (String.mk (printV 0 v)).data = printV 0 v := rfl
  rw [hlen, hdata]
  have h1 : parseV ((printV 0 v).length + 1) (printV 0 v) = some (v, []) := by
    have h2 := parseV_complete v 0 [] ((printV 0 v).length + 1) hwf
      (by have := jfuel_le v 0; omega) rfl
    simpa using h2
  rw [h1]
  simp [skipWs]

/-! ## The application: src/travelbest.py -/

/-- A Python exception that is not caught by the app. -/
inductive PyErr where
  | keyError (k : String)
  | typeError
deriving DecidableEq, Repr

/-- A failure of the external chat-completions call (any `groq` exception:
transport, auth, rate limiting, ...). -/
inductive ApiErr where
  | serviceError
deriving DecidableEq, Repr

/-- The request `get_perfect_destination` sends:
`client.chat.completions.create(model=..., messages=[system, user],
temperature=...)`. -/
structure ChatRequest where
  model : String
  systemMsg : String
  userMsg : String
  temperature : ℚ
deriving DecidableEq

/-- The `user_inputs` dict passed to `get_perfect_destination`; a field is
`none` when the corresponding key is absent from the dict. -/
structure UserInputs where
  traveler_type : Option String
  duration : Option Nat
  continent : Option String
  interests : Option (List String)
  destination_type : Option String
  budget : Option String
  season : Option String
  age_group : Option String
  climate_preference : Option String
deriving DecidableEq, Repr

/-- `user_inputs[k]`: a Python dict lookup, raising `KeyError` when the key
is absent. -/
def getKey (k : String) (v : Option α) : Except PyErr α :=
  match v with
  | some x => Except.ok x
  | none => Except.error (.keyError k)

/-- The body of the f-string at src/travelbest.py lines 42-64, as a function
of the nine interpolated values.  `\x7b`/`\x7d` are the literal braces the
f-string writes via `{{`/`}}`. -/
def promptText (tt : String) (dur : Nat) (cont : String) (ints : String) (dt : String)
    (bud : String) (sea : String) (ag : String) (cp : String) : String :=
  "\n    You are an elite travel curator with 20+ years of experience. Suggest the best matching destination based on the following profile:\n    - Traveler: "
    ++ tt ++ "\n    - Duration: " ++ toString dur ++ " days\n    - Continent: "
    ++ cont ++ "\n    - Interests: " ++ ints ++ "\n    - Destination Type: "
    ++ dt ++ "\n    - Budget: " ++ bud ++ "\n    - Season: " ++ sea
    ++ "\n    - Age Group: " ++ ag ++ "\n    - Preferred Climate: " ++ cp
    ++ "\n\n    Provide the best match, even if partial matches are found. Return ONLY this JSON structure:\n    \x7b\n        \"destination\": \"City, Country\",\n        \"match_score\": \"X/10 match score\",\n        \"why_perfect\": [\"3 bullet points max\"],\n        \"coordinates\": [lat, lng],\n        \"itinerary_highlights\": [\"Day 1: Morning/Afternoon/Evening\", \"Day 2:...\"],\n        \"local_secret\": \"One special insider tip\",\n        \"warning\": \"Main safety concern to note\"\n    \x7d\n    "

/-- The prompt construction in `get_perfect_destination` (the f-string,
evaluated before the `try` block): each dict access may raise `KeyError`, in
the order the f-string evaluates them; `', '.join(...)` is
`String.intercalate ", "`. -/
def buildPrompt (u : UserInputs) : Except PyErr String := do
  let tt ← getKey "traveler_type" u.traveler_type
  let dur ← getKey "duration" u.duration
  let cont ← getKey "continent" u.continent
  let ints ← getKey "interests" u.interests
  let dt ← getKey "destination_type" u.destination_type
  let bud ← getKey "budget" u.budget
  let sea ← getKey "season" u.season
  let ag ← getKey "age_group" u.age_group
  let cp ← getKey "climate_preference" u.climate_preference
  pure (promptText tt dur cont (String.intercalate ", " ints) dt bud sea ag cp)

/-- The single user-visible failure message shown by the `except` handler
(`st.error(...)` then `st.stop()`). -/
def errMsg : String :=
  "⚠️ Sorry, we couldn\x27t generate your perfect destination. Please review your selections and try again."

/-- The system message of the chat request. -/
def sysMsg : String := "You are an elite travel curator. Be extremely selective."

/-- How a run of `get_perfect_destination` ends. -/
inductive Outcome where
  | ok (v : Json)
  | stopped (msg : String)
  | raised (e : PyErr)
deriving DecidableEq, Repr

/-- `get_perfect_destination(user_inputs)` (src/travelbest.py lines 41-77),
with the external service modelled as a function from the request to either a
reply text or an error.  Returns the outcome together with the number of
calls made to the external service.  The prompt f-string is evaluated before
the `try:`, so a missing dict key raises an uncaught `KeyError`; any failure
inside the `try` (service error, or `json.loads` on a non-JSON reply) is
converted by the `except Exception` handler into `st.error(errMsg)` followed
by `st.stop()`; a reply that parses as JSON is returned as-is, with no schema
validation. -/
def get_perfect_destination (api : ChatRequest → Except ApiErr String)
    (user_inputs : UserInputs) : Outcome × Nat :=
  match buildPrompt user_inputs with
  | .error e => (.raised e, 0)
  | .ok prompt =>
    let req : ChatRequest :=
      { model := "llama3-70b-8192", systemMsg := sysMsg, userMsg := prompt,
        temperature := (1 : ℚ) / 2 }
    (match api req with
     | .error _ => .stopped errMsg
     | .ok content =>
       match parseJson content with
       | none => .stopped errMsg
       | some v => .ok v,
     1)

/-- A JSON number literal denoting zero. -/
def numIsZero (n : JNum) : Bool :=
  n.ip.all (fun d => decide (d = 0)) && n.fp.all (fun d => decide (d = 0))

/-- Python truthiness of a parsed JSON value (`if rec:` at line 183). -/
def truthy : Json → Bool
  | .null => false
  | .bool b => b
  | .num n => !(numIsZero n)
  | .str s => !s.isEmpty
  | .arr .nil => false
  | .arr (.cons _ _) => true
  | .obj .nil => false
  | .obj (.cons _ _ _) => true

/-- Lookup in a parsed JSON object, as Python dict subscript. -/
def jgetObj : JObj → String → Except PyErr Json
  | .nil, k => Except.error (.keyError k)
  | .cons k2 v t, k => if k2 = k then Except.ok v else jgetObj t k

/-- `rec[k]` on a parsed JSON value: dict lookup raising `KeyError` when the
key is absent, a `TypeError` when the value is not a dict. -/
def jget (v : Json) (k : String) : Except PyErr Json :=
  match v with
  | .obj fs => jgetObj fs k
  | _ => Except.error .typeError

/-- What the page shows after the button handler runs. -/
structure PageOutput where
  error_box : Option String
  rec_shown : Option Json
  raised : Option PyErr
deriving DecidableEq, Repr

/-- The field accesses `main` performs when rendering a recommendation, in
source order (lines 185-208). -/
def renderRec (rec : Json) : Except PyErr Unit := do
  _ ← jget rec "destination"
  _ ← jget rec "match_score"
  _ ← jget rec "coordinates"
  _ ← jget rec "why_perfect"
  _ ← jget rec "itinerary_highlights"
  _ ← jget rec "local_secret"
  _ ← jget rec "warning"
  pure ()

/-- One run of the button handler in `main` (src/travelbest.py lines
179-212): call `get_perfect_destination`; if it stopped, the single error box
is showing and nothing else renders; if it returned a falsy value (`if rec:`
fails), nothing renders at all; otherwise the recommendation card is rendered
(each field access may raise). -/
def render_main (api : ChatRequest → Except ApiErr String) (u : UserInputs) : PageOutput :=
  match (get_perfect_destination api u).1 with
  | .raised e => { error_box := none, rec_shown := none, raised := some e }
  | .stopped m => { error_box := some m, rec_shown := none, raised := none }
  | .ok rec =>
    if truthy rec then
      match renderRec rec with
      | .ok _ => { error_box := none, rec_shown := some rec, raised := none }
      | .error e => { error_box := none, rec_shown := none, raised := some e }
    else { error_box := none, rec_shown := none, raised := none }

/-! ## The input widgets (lines 80-162) -/

/-- Options of the `traveler_type` radio (line 86). -/
def traveler_type_options : List String :=
  ["Solo", "Couple", "Family", "Business", "Friends Group"]

/-- Options of the budget select-slider (line 99). -/
def budget_options : List String := ["💰 Budget", "💵 Comfort", "💎 Luxury"]

/-- Options of the age-group selectbox (line 107). -/
def age_group_options : List String := ["18-25", "26-40", "41-60", "60+"]

/-- Options of the climate selectbox (line 109). -/
def climate_preference_options : List String := ["Warm", "Cold", "Tropical", "Dry", "Any"]

/-- Options of the continent selectbox (line 126). -/
def continent_options : List String :=
  ["Any", "Europe", "Asia", "Africa", "Americas", "Oceania"]

/-- Options of the season selectbox (line 130). -/
def season_options : List String := ["Summer", "Winter", "Spring", "Fall", "Any"]

/-- Options of the landscape-type selectbox (line 136), 13 values. -/
def destination_type_options : List String :=
  ["Mountains", "Beaches", "Deserts", "Forests", "Islands",
   "Lakes & Rivers", "Volcanoes", "Tundra", "Countryside",
   "Canyons", "Cliffs", "Sand Dunes", "Waterfalls"]

/-- Options of the interests multiselect (line 144), 23 values. -/
def interests_options : List String :=
  ["History", "Food & Street Eats", "Nature Trails", "Art & Museums",
   "Shopping", "Nightlife & Clubs", "Photography", "Adventure Sports",
   "Local Culture", "Relaxation", "Festivals & Events", "Spiritual Retreats",
   "Tech & Innovation", "Sustainable Travel", "Music & Concerts", "Gaming Cafes",
   "Wellness & Spas", "Social Media Hotspots", "Extreme Sports", "Eco-Lodging",
   "Unique Stays (e.g., Treehouses)", "Road Trips", "Digital Detox"]

/-- A user's choices in the Traveler Profile section: each widget yields one
of its options; the slider is clamped to `min_value=1, max_value=21` by the
widget itself. -/
structure ProfileChoices where
  traveler_idx : Fin 5
  duration : Nat
  duration_ok : 1 ≤ duration ∧ duration ≤ 21
  budget_idx : Fin 3
  age_idx : Fin 4
  climate_idx : Fin 5

/-- A user's choices in the Destination Preferences section; the multiselect
yields a selection of entries of its option list. -/
structure DestChoices where
  continent_idx : Fin 6
  season_idx : Fin 5
  dest_idx : Fin 13
  interests_sel : List (Fin 23)

/-- The dict returned by `traveler_profile_section` (lines 111-117). -/
structure ProfileDict where
  traveler_type : String
  duration : Nat
  budget : String
  age_group : String
  climate_preference : String
deriving DecidableEq, Repr

/-- The dict returned by `destination_preferences_section` (lines 157-162). -/
structure DestDict where
  continent : String
  season : String
  destination_type : String
  interests : List String
deriving DecidableEq, Repr

/-- `traveler_profile_section` (lines 80-117): the values its widgets
produce for a given set of choices. -/
def traveler_profile_section (c : ProfileChoices) : ProfileDict :=
  { traveler_type := traveler_type_options.get ⟨c.traveler_idx.1, c.traveler_idx.2⟩,
    duration := c.duration,
    budget := budget_options.get ⟨c.budget_idx.1, c.budget_idx.2⟩,
    age_group := age_group_options.get ⟨c.age_idx.1, c.age_idx.2⟩,
    climate_preference :=
      climate_preference_options.get ⟨c.climate_idx.1, c.climate_idx.2⟩ }

/-- `destination_preferences_section` (lines 120-162). -/
def destination_preferences_section (d : DestChoices) : DestDict :=
  { continent := continent_options.get ⟨d.continent_idx.1, d.continent_idx.2⟩,
    season := season_options.get ⟨d.season_idx.1, d.season_idx.2⟩,
    destination_type := destination_type_options.get ⟨d.dest_idx.1, d.dest_idx.2⟩,
    interests := d.interests_sel.map fun i => interests_options.get ⟨i.1, i.2⟩ }

/-- `user_inputs = {**profile, **prefs}` (line 177): the merged dict passed to
`get_perfect_destination`; all nine keys are present. -/
def merge_inputs (p : ProfileDict) (d : DestDict) : UserInputs :=
  { traveler_type := some p.traveler_type, duration := some p.duration,
    budget := some p.budget, age_group := some p.age_group,
    climate_preference := some p.climate_preference,
    continent := some d.continent, season := some d.season,
    destination_type := some d.destination_type, interests := some d.interests }

/-! ## Coordinate interpretation -/

/-- The natural number a digit list denotes. -/
def digitsVal (ds : List Nat) : Nat := ds.foldl (fun a d => a * 10 + d) 0

/-- The rational value a JSON number literal denotes. -/
def JNum.toRat (n : JNum) : ℚ :=
  (if n.neg then -1 else 1) *
    ((digitsVal n.ip : ℚ) + (digitsVal n.fp : ℚ) / 10 ^ n.fp.length) *
    (match n.exp with
     | none => 1
     | some (s, ds) => if s then 1 / 10 ^ digitsVal ds else 10 ^ digitsVal ds)

/-- The `coordinates` field of a recommendation, when it is a two-element
array of numbers. -/
def coordPair (v : Json) : Option (JNum × JNum) :=
  match jget v "coordinates" with
  | .ok (.arr (.cons (.num la) (.cons (.num lo) .nil))) => some (la, lo)
  | _ => none

/-- The coordinate ranges of the spec, section 3. -/
def inRange (la lo : JNum) : Prop :=
  -90 ≤ la.toRat ∧ la.toRat ≤ 90 ∧ -180 ≤ lo.toRat ∧ lo.toRat ≤ 180

/-- All nine required keys are present in the dict. -/
def completeInputs (u : UserInputs) : Bool :=
  u.traveler_type.isSome && u.duration.isSome && u.continent.isSome &&
    u.interests.isSome && u.destination_type.isSome && u.budget.isSome &&
    u.season.isSome && u.age_group.isSome && u.climate_preference.isSome

/-! ## Concrete scenario data -/

/-- An external service that always replies with a fixed text (a mocked
model reply). -/
def constApi (reply : String) : ChatRequest → Except ApiErr String := fun _ => .ok reply

/-- An external service whose call always fails. -/
def downApi : ChatRequest → Except ApiErr String := fun _ => .error .serviceError

/-- The spec's section 8 scenario input: `{Solo, 7, Comfort, Europe, Summer,
Beaches, interests=["Food & Street Eats","Local Culture"]}`, with the two
extra profile fields set to widget values. -/
def scenario_inputs : UserInputs :=
  { traveler_type := some "Solo", duration := some 7, continent := some "Europe",
    interests := some ["Food & Street Eats", "Local Culture"],
    destination_type := some "Beaches", budget := some "Comfort",
    season := some "Summer", age_group := some "26-40",
    climate_preference := some "Any" }

/-- The spec's mocked Paris model reply, verbatim. -/
def paris_reply : String :=
  "\x7b\"destination\":\"Paris, France\",\"match_score\":\"9/10\",\"why_perfect\":[\"Rich in history\",\"Romantic atmosphere\",\"Great food\"],\"coordinates\":[48.8566,2.3522],\"itinerary_highlights\":[\"Day 1: Eiffel Tower\",\"Day 2: Louvre\"],\"local_secret\":\"Hidden garden\",\"warning\":\"Pickpockets common\"\x7d"

/-- The JSON value the Paris reply parses to. -/
def paris_rec : Json :=
  .obj (.cons "destination" (.str "Paris, France")
    (.cons "match_score" (.str "9/10")
    (.cons "why_perfect" (.arr (.cons (.str "Rich in history")
      (.cons (.str "Romantic atmosphere") (.cons (.str "Great food") .nil))))
    (.cons "coordinates" (.arr (.cons (.num ⟨false, [4, 8], [8, 5, 6, 6], none⟩)
      (.cons (.num ⟨false, [2], [3, 5, 2, 2], none⟩) .nil)))
    (.cons "itinerary_highlights" (.arr (.cons (.str "Day 1: Eiffel Tower")
      (.cons (.str "Day 2: Louvre") .nil)))
    (.cons "local_secret" (.str "Hidden garden")
    (.cons "warning" (.str "Pickpockets common") .nil)))))))

set_option maxRecDepth 10000 in
example : parseJson paris_reply = some paris_rec := rfl

/-- The Paris reply with the `coordinates` field omitted (the spec's
SchemaViolation scenario). -/
def no_coords_reply : String :=
  "\x7b\"destination\":\"Paris, France\",\"match_score\":\"9/10\",\"why_perfect\":[\"Rich in history\"],\"itinerary_highlights\":[\"Day 1: Eiffel Tower\"],\"local_secret\":\"Hidden garden\",\"warning\":\"Pickpockets common\"\x7d"

/-- The JSON value the no-coordinates reply parses to. -/
def no_coords_rec : Json :=
  .obj (.cons "destination" (.str "Paris, France")
    (.cons "match_score" (.str "9/10")
    (.cons "why_perfect" (.arr (.cons (.str "Rich in history") .nil))
    (.cons "itinerary_highlights" (.arr (.cons (.str "Day 1: Eiffel Tower") .nil))
    (.cons "local_secret" (.str "Hidden garden")
    (.cons "warning" (.str "Pickpockets common") .nil))))))

/-- A reply whose coordinates are far outside the legal ranges. -/
def bad_coords_reply : String :=
  "\x7b\"destination\":\"Nowhere, Atlantis\",\"coordinates\":[200,300]\x7d"

/-- The latitude literal `200`. -/
def bad_lat : JNum := ⟨false, [2, 0, 0], [], none⟩

/-- The longitude literal `300`. -/
def bad_lng : JNum := ⟨false, [3, 0, 0], [], none⟩

/-- The JSON value the bad-coordinates reply parses to. -/
def bad_coords_rec : Json :=
  .obj (.cons "destination" (.str "Nowhere, Atlantis")
    (.cons "coordinates" (.arr (.cons (.num bad_lat) (.cons (.num bad_lng) .nil))) .nil))

/-- A `user_inputs` dict with none of the nine keys. -/
def empty_inputs : UserInputs :=
  { traveler_type := none, duration := none, continent := none, interests := none,
    destination_type := none, budget := none, season := none, age_group := none,
    climate_preference := none }

/-- The widget defaults of the source: radio index 0, slider 7, select-slider
value `💵 Comfort`, selectboxes index 0. -/
def default_profile_choices : ProfileChoices :=
  { traveler_idx := 0, duration := 7, duration_ok := by omega,
    budget_idx := 1, age_idx := 0, climate_idx := 0 }

/-! ## Helper lemmas about the app -/

theorem completeInputs_spec (u : UserInputs) (h : completeInputs u = true) :
    ∃ tt dur cont ints dt bud sea ag cp,
      u.traveler_type = some tt ∧ u.duration = some dur ∧ u.continent = some cont ∧
      u.interests = some ints ∧ u.destination_type = some dt ∧ u.budget = some bud ∧
      u.season = some sea ∧ u.age_group = some ag ∧ u.climate_preference = some cp := by
  simp only [completeInputs, Bool.and_eq_true, Option.isSome_iff_exists] at h
  rcases h with ⟨⟨⟨⟨⟨⟨⟨⟨⟨tt, h1⟩, ⟨dur, h2⟩⟩, ⟨cont, h3⟩⟩, ⟨ints, h4⟩⟩, ⟨dt, h5⟩⟩,
    ⟨bud, h6⟩⟩, ⟨sea, h7⟩⟩, ⟨ag, h8⟩⟩, ⟨cp, h9⟩⟩
  exact ⟨tt, dur, cont, ints, dt, bud, sea, ag, cp, h1, h2, h3, h4, h5, h6, h7, h8, h9⟩

theorem buildPrompt_eq (u : UserInputs) (tt cont dt bud sea ag cp : String)
    (dur : Nat) (ints : List String)
    (h1 : u.traveler_type = some tt) (h2 : u.duration = some dur)
    (h3 : u.continent = some cont) (h4 : u.interests = some ints)
    (h5 : u.destination_type = some dt) (h6 : u.budget = some bud)
    (h7 : u.season = some sea) (h8 : u.age_group = some ag)
    (h9 : u.climate_preference = some cp) :
    buildPrompt u =
      Except.ok (promptText tt dur cont (String.intercalate ", " ints) dt bud sea ag cp) := by
  simp [buildPrompt, h1, h2, h3, h4, h5, h6, h7, h8, h9, getKey, Bind.bind, Except.bind,
    Pure.pure, Except.pure]

theorem gpd_ok (u : UserInputs) (reply : String) (v : Json)
    (hc : completeInputs u = true) (hv : parseJson reply = some v) :
    get_perfect_destination (constApi reply) u = (.ok v, 1) := by
  obtain ⟨tt, dur, cont, ints, dt, bud, sea, ag, cp, h1, h2, h3, h4, h5, h6, h7, h8, h9⟩ :=
    completeInputs_spec u hc
  rw [get_perfect_destination,
    buildPrompt_eq u tt cont dt bud sea ag cp dur ints h1 h2 h3 h4 h5 h6 h7 h8 h9]
  simp [constApi, hv]

theorem gpd_stopped (u : UserInputs) (reply : String)
    (hc : completeInputs u = true) (hbad : parseJson reply = none) :
    get_perfect_destination (constApi reply) u = (.stopped errMsg, 1) := by
  obtain ⟨tt, dur, cont, ints, dt, bud, sea, ag, cp, h1, h2, h3, h4, h5, h6, h7, h8, h9⟩ :=
    completeInputs_spec u hc
  rw [get_perfect_destination,
    buildPrompt_eq u tt cont dt bud sea ag cp dur ints h1 h2 h3 h4 h5 h6 h7 h8 h9]
  simp [constApi, hbad]

/-! ## Claims -/

set_option maxRecDepth 10000 in
/-- C1 (counterexample): the spec's own scenario of a model reply that is
valid JSON but omits `coordinates` does not produce any failure:
`get_perfect_destination` returns the partially-populated object unchanged
(its `coordinates` lookup raises `KeyError`), instead of the claimed
`Failure{SchemaViolation}`. -/
theorem C1_counterexample_partial_object_returned :
    get_perfect_destination (constApi no_coords_reply) scenario_inputs =
        (.ok no_coords_rec, 1) ∧
      jget no_coords_rec "coordinates" = .error (.keyError "coordinates") := by
  constructor
  · rfl
  · rfl

/-- C1 (amended): `get_perfect_destination` performs no schema validation at
all: whenever the model reply parses as JSON, the parsed value is returned
as-is in a single call — missing fields, wrong types, or out-of-range
coordinates are never rejected, so a partially-populated object can be
returned. -/
theorem C1_amended_no_schema_validation (u : UserInputs) (reply : String) (v : Json)
    (hc : completeInputs u = true) (hv : parseJson reply = some v) :
    get_perfect_destination (constApi reply) u = (.ok v, 1) :=
  gpd_ok u reply v hc hv

set_option maxRecDepth 10000 in
/-- C1 (witness). -/
theorem C1_witness :
    get_perfect_destination (constApi no_coords_reply) scenario_inputs =
      (.ok no_coords_rec, 1) :=
  C1_amended_no_schema_validation scenario_inputs no_coords_reply no_coords_rec rfl rfl

set_option maxRecDepth 10000 in
/-- C2 (counterexample): a reply with coordinates `[200, 300]` — far outside
latitude `[-90, 90]` and longitude `[-180, 180]` — is accepted unchanged by
`get_perfect_destination`: the result is the parsed object with those very
coordinates, neither rejected nor clamped. -/
theorem C2_counterexample_out_of_range_accepted :
    get_perfect_destination (constApi bad_coords_reply) scenario_inputs =
        (.ok bad_coords_rec, 1) ∧
      coordPair bad_coords_rec = some (bad_lat, bad_lng) ∧
      ¬ inRange bad_lat bad_lng := by
  refine ⟨rfl, rfl, ?_⟩
  intro h
  rw [inRange] at h
  have h2 : JNum.toRat bad_lat = 200 := by
    norm_num [JNum.toRat, bad_lat, digitsVal]
  rw [h2] at h
  norm_num at h

/-- C2 (amended): `get_perfect_destination` performs no range check on
coordinates: a reply whose parsed coordinates lie outside the legal ranges is
still returned, with the coordinates passed through verbatim. -/
theorem C2_amended_no_range_check (u : UserInputs) (reply : String) (v : Json)
    (la lo : JNum) (hc : completeInputs u = true) (hv : parseJson reply = some v)
    (hcoords : coordPair v = some (la, lo)) (hout : ¬ inRange la lo) :
    ∃ w, get_perfect_destination (constApi reply) u = (.ok w, 1) ∧
      coordPair w = some (la, lo) :=
  ⟨v, gpd_ok u reply v hc hv, hcoords⟩

set_option maxRecDepth 10000 in
/-- C2 (witness). -/
theorem C2_witness :
    ∃ w, get_perfect_destination (constApi bad_coords_reply) scenario_inputs =
        (.ok w, 1) ∧ coordPair w = some (bad_lat, bad_lng) :=
  C2_amended_no_range_check scenario_inputs bad_coords_reply bad_coords_rec bad_lat bad_lng
    rfl rfl rfl
    (by
      intro h
      rw [inRange] at h
      have h2 : JNum.toRat bad_lat = 200 := by
        norm_num [JNum.toRat, bad_lat, digitsVal]
      rw [h2] at h
      norm_num at h)

/-- C3: when the model reply is not valid JSON, `get_perfect_destination`
stops with the single user-visible adjust-and-retry message after exactly one
service call (no automatic retry), and the page shows only that error — no
partial recommendation is displayed. -/
theorem C3_malformed_reply_single_failure (u : UserInputs) (reply : String)
    (hc : completeInputs u = true) (hbad : parseJson reply = none) :
    get_perfect_destination (constApi reply) u = (.stopped errMsg, 1) ∧
      render_main (constApi reply) u =
        { error_box := some errMsg, rec_shown := none, raised := none } := by
  have h1 := gpd_stopped u reply hc hbad
  refine ⟨h1, ?_⟩
  rw [render_main, h1]

/-- C3 (witness): the spec's mocked reply, the string `not json`. -/
theorem C3_witness :
    get_perfect_destination (constApi "not json") scenario_inputs = (.stopped errMsg, 1) ∧
      render_main (constApi "not json") scenario_inputs =
        { error_box := some errMsg, rec_shown := none, raised := none } :=
  C3_malformed_reply_single_failure scenario_inputs "not json" rfl rfl

/-- C4: the prompt construction is a pure, deterministic function of the
`user_inputs` dict: with all nine keys present it returns exactly the
template text with the fields interpolated, the interests joined as a
comma-separated list, and identical inputs yield identical prompt text. -/
theorem C4_buildPrompt_pure (u : UserInputs) (tt cont dt bud sea ag cp : String)
    (dur : Nat) (ints : List String)
    (h1 : u.traveler_type = some tt) (h2 : u.duration = some dur)
    (h3 : u.continent = some cont) (h4 : u.interests = some ints)
    (h5 : u.destination_type = some dt) (h6 : u.budget = some bud)
    (h7 : u.season = some sea) (h8 : u.age_group = some ag)
    (h9 : u.climate_preference = some cp) :
    buildPrompt u =
        Except.ok (promptText tt dur cont (String.intercalate ", " ints) dt bud sea ag cp) ∧
      ∀ u2 : UserInputs, u2 = u → buildPrompt u2 = buildPrompt u :=
  ⟨buildPrompt_eq u tt cont dt bud sea ag cp dur ints h1 h2 h3 h4 h5 h6 h7 h8 h9,
   fun _ h => by rw [h]⟩

/-- C4 (witness). -/
theorem C4_witness :
    buildPrompt scenario_inputs =
      Except.ok (promptText "Solo" 7 "Europe"
        (String.intercalate ", " ["Food & Street Eats", "Local Culture"])
        "Beaches" "Comfort" "Summer" "26-40" "Any") :=
  (C4_buildPrompt_pure scenario_inputs "Solo" "Europe" "Beaches" "Comfort" "Summer"
    "26-40" "Any" 7 ["Food & Street Eats", "Local Culture"]
    rfl rfl rfl rfl rfl rfl rfl rfl rfl).1

/-- C5: round-trip — serializing a recommendation as
`save_recommendation_to_file` does (`json.dump(rec, tmp, indent=4)`) and
re-parsing the produced text as JSON yields a value equal to the original. -/
theorem C5_roundtrip (rec : Json) (hwf : jsonWF rec = true) :
    parseJson (save_recommendation_to_file rec) = some rec :=
  parseJson_dumps rec hwf

/-- C5 (witness): the Paris recommendation round-trips. -/
theorem C5_witness :
    jsonWF paris_rec = true ∧
      parseJson (save_recommendation_to_file paris_rec) = some paris_rec :=
  ⟨rfl, C5_roundtrip paris_rec rfl⟩

set_option maxRecDepth 10000 in
/-- C6: the spec's section 8 scenario — with the scenario inputs and the
mocked Paris reply, the client returns the parsed object whose `destination`
is `Paris, France` and whose `coordinates` are `(48.8566, 2.3522)`. -/
theorem C6_paris_scenario :
    (get_perfect_destination (constApi paris_reply) scenario_inputs).1 = .ok paris_rec ∧
      jget paris_rec "destination" = .ok (.str "Paris, France") ∧
      jget paris_rec "coordinates" =
        .ok (.arr (.cons (.num ⟨false, [4, 8], [8, 5, 6, 6], none⟩)
          (.cons (.num ⟨false, [2], [3, 5, 2, 2], none⟩) .nil))) ∧
      JNum.toRat ⟨false, [4, 8], [8, 5, 6, 6], none⟩ = 48.8566 ∧
      JNum.toRat ⟨false, [2], [3, 5, 2, 2], none⟩ = 2.3522 := by
  refine ⟨rfl, rfl, rfl, ?_, ?_⟩
  · norm_num [JNum.toRat, digitsVal]
  · norm_num [JNum.toRat, digitsVal]

/-- C7 (counterexample): the input layer does not produce the bare section-3
enum names: the budget select-slider's default value is `💵 Comfort`, which
is not an element of the section-3 set `{Budget, Comfort, Luxury}`. -/
theorem C7_counterexample_budget_emoji :
    (traveler_profile_section default_profile_choices).budget = "💵 Comfort" ∧
      "💵 Comfort" ∉ ["Budget", "Comfort", "Luxury"] :=
  ⟨rfl, by decide⟩

/-- C7 (amended): every value the input layer produces lies in the closed
option set of its widget as spelled in the code — traveler type in the
five-option list (with `Friends Group` spelled with a space), budget in the
emoji-prefixed three-option list, duration within 1..21, the selectbox fields
in their lists, and interests a subset of the fixed 23-value vocabulary. -/
theorem C7_amended_widget_invariant (c : ProfileChoices) (d : DestChoices) :
    (traveler_profile_section c).traveler_type ∈ traveler_type_options ∧
      1 ≤ (traveler_profile_section c).duration ∧
      (traveler_profile_section c).duration ≤ 21 ∧
      (traveler_profile_section c).budget ∈ budget_options ∧
      (traveler_profile_section c).age_group ∈ age_group_options ∧
      (traveler_profile_section c).climate_preference ∈ climate_preference_options ∧
      (destination_preferences_section d).continent ∈ continent_options ∧
      (destination_preferences_section d).season ∈ season_options ∧
      (destination_preferences_section d).destination_type ∈ destination_type_options ∧
      (∀ s ∈ (destination_preferences_section d).interests, s ∈ interests_options) := by
  refine ⟨List.get_mem _ _ _, c.duration_ok.1, c.duration_ok.2, List.get_mem _ _ _,
    List.get_mem _ _ _, List.get_mem _ _ _, List.get_mem _ _ _, List.get_mem _ _ _,
    List.get_mem _ _ _, ?_⟩
  intro s hs
  simp only [destination_preferences_section, List.mem_map] at hs
  obtain ⟨i, _, rfl⟩ := hs
  exact List.get_mem _ _ _

/-- C9: a model reply parsing to a falsy JSON value (such as `null` or the
empty object) is returned by `get_perfect_destination` without any failure,
and `main` then renders neither a recommendation nor any error message. -/
theorem C9_falsy_reply_silent (u : UserInputs) (reply : String) (v : Json)
    (hc : completeInputs u = true) (hv : parseJson reply = some v)
    (hf : truthy v = false) :
    (get_perfect_destination (constApi reply) u).1 = .ok v ∧
      render_main (constApi reply) u =
        { error_box := none, rec_shown := none, raised := none } := by
  have h1 := gpd_ok u reply v hc hv
  refine ⟨by rw [h1], ?_⟩
  rw [render_main, h1]
  simp [hf]

/-- C9 (witness): the empty object `{}`. -/
theorem C9_witness :
    (get_perfect_destination (constApi "\x7b\x7d") scenario_inputs).1 =
        .ok (.obj .nil) ∧
      render_main (constApi "\x7b\x7d") scenario_inputs =
        { error_box := none, rec_shown := none, raised := none } :=
  C9_falsy_reply_silent scenario_inputs "\x7b\x7d" (.obj .nil) rfl rfl rfl

/-- C10: when the `user_inputs` dict lacks any of the nine required keys, the
prompt f-string (evaluated before the `try` block) raises an uncaught
`KeyError` naming one of the nine keys, the external service is never called,
and the user-facing failure handler does not fire. -/
theorem C10_missing_key_raises (api : ChatRequest → Except ApiErr String)
    (u : UserInputs) (hmiss : completeInputs u = false) :
    ∃ k, get_perfect_destination api u = (.raised (.keyError k), 0) ∧
      k ∈ ["traveler_type", "duration", "continent", "interests", "destination_type",
        "budget", "season", "age_group", "climate_preference"] ∧
      ∀ m, (get_perfect_destination api u).1 ≠ .stopped m := by
  have keyCase : ∀ (k : String),
      buildPrompt u = .error (.keyError k) →
      k ∈ ["traveler_type", "duration", "continent", "interests", "destination_type",
        "budget", "season", "age_group", "climate_preference"] →
      ∃ k2, get_perfect_destination api u = (.raised (.keyError k2), 0) ∧
        k2 ∈ ["traveler_type", "duration", "continent", "interests", "destination_type",
          "budget", "season", "age_group", "climate_preference"] ∧
        ∀ m, (get_perfect_destination api u).1 ≠ .stopped m := by
    intro k hbp hmem
    have heq : get_perfect_destination api u = (.raised (.keyError k), 0) := by
      rw [get_perfect_destination, hbp]
    exact ⟨k, heq, hmem, fun m => by rw [heq]; simp⟩
  cases h1 : u.traveler_type with
  | none =>
      exact keyCase "traveler_type"
        (by simp [buildPrompt, getKey, h1, Bind.bind, Except.bind]) (by simp)
  | some tt =>
  cases h2 : u.duration with
  | none =>
      exact keyCase "duration"
        (by simp [buildPrompt, getKey, h1, h2, Bind.bind, Except.bind]) (by simp)
  | some dur =>
  cases h3 : u.continent with
  | none =>
      exact keyCase "continent"
        (by simp [buildPrompt, getKey, h1, h2, h3, Bind.bind, Except.bind]) (by simp)
  | some cont =>
  cases h4 : u.interests with
  | none =>
      exact keyCase "interests"
        (by simp [buildPrompt, getKey, h1, h2, h3, h4, Bind.bind, Except.bind]) (by simp)
  | some ints =>
  cases h5 : u.destination_type with
  | none =>
      exact keyCase "destination_type"
        (by simp [buildPrompt, getKey, h1, h2, h3, h4, h5, Bind.bind, Except.bind]) (by simp)
  | some dt =>
  cases h6 : u.budget with
  | none =>
      exact keyCase "budget"
        (by simp [buildPrompt, getKey, h1, h2, h3, h4, h5, h6, Bind.bind, Except.bind])
        (by simp)
  | some bud =>
  cases h7 : u.season with
  | none =>
      exact keyCase "season"
        (by simp [buildPrompt, getKey, h1, h2, h3, h4, h5, h6, h7, Bind.bind, Except.bind])
        (by simp)
  | some sea =>
  cases h8 : u.age_group with
  | none =>
      exact keyCase "age_group"
        (by simp [buildPrompt, getKey, h1, h2, h3, h4, h5, h6, h7, h8, Bind.bind,
          Except.bind]) (by simp)
  | some ag =>
  cases h9 : u.climate_preference with
  | none =>
      exact keyCase "climate_preference"
        (by simp [buildPrompt, getKey, h1, h2, h3, h4, h5, h6, h7, h8, h9, Bind.bind,
          Except.bind]) (by simp)
  | some cp =>
      exact absurd (by simp [completeInputs, h1, h2, h3, h4, h5, h6, h7, h8, h9] :
        completeInputs u = true) (by rw [hmiss]; simp)

/-- C10 (witness): the empty dict. -/
theorem C10_witness :
    ∃ k, get_perfect_destination downApi empty_inputs = (.raised (.keyError k), 0) ∧
      k ∈ ["traveler_type", "duration", "continent", "interests", "destination_type",
        "budget", "season", "age_group", "climate_preference"] ∧
      ∀ m, (get_perfect_destination downApi empty_inputs).1 ≠ .stopped m :=
  C10_missing_key_raises downApi empty_inputs rfl

end TravelGuide
